import Mathlib

/-!
Verification development for the WeFund crowdfunding backend
(investment/wallet ledger and project funding state machine).

The definitions below are a shallow embedding of the Python handlers in
`backend/routers/{users,projects,mobile_money,admin,admin_enhanced,auth}.py`.
Currency amounts (Python floats) are modelled as integers — the
handlers only ever add, subtract and compare amounts (no division or
rounding), so any linearly ordered abelian group models them and the
integers keep every definition kernel-computable; MongoDB
`find_one` is modelled as `List.find?` (first match in insertion order)
and `update_one` as `updateFirst` (update the first matching element).
`datetime.utcnow()` is modelled by a logical clock stored in the state.
Fields irrelevant to every claim (provider, phone number, free-text notes,
image, category, roi, ...) are projected away.  A Python crash
(attribute access on a missing document, an HTTP 500) is modelled as the
distinguished error `internalError`, as opposed to the deliberately
raised HTTP 4xx errors.
-/

namespace WeFund

/-- One user account document (collection `users`), as created by
`auth.register` and mutated by the wallet/investment handlers. -/
structure User where
  uid : Nat
  name : String
  email : String
  age : Nat
  walletBalance : Int
  totalInvested : Int
  totalReturns : Int
  verified : Bool
  blocked : Bool
deriving DecidableEq

/-- One `(userId, amount, date)` entry of a project's `investors` array. -/
structure InvestorEntry where
  userId : Nat
  amount : Int
  date : Nat
deriving DecidableEq

/-- One project document (collection `projects`), as created by
`admin.create_project`. -/
structure Project where
  pid : Nat
  title : String
  fundingGoal : Int
  fundedAmount : Int
  minInvestment : Int
  status : String
  verified : Bool
  blocked : Bool
  investors : List InvestorEntry
deriving DecidableEq

/-- One ledger entry (collection `transactions`). -/
structure Txn where
  userId : Nat
  amount : Int
  ttype : String
  status : String
  projectId : Option Nat
  projectTitle : Option String
  transaction_ref : Option String
  confirmed_by : Option Nat
  confirmed_at : Option Nat
  date : Nat
deriving DecidableEq

/-- One record of the `momo_transfers` collection written by
`PersonalMoMoService.process_deposit_to_personal_momo`. -/
structure MomoTransfer where
  user_id : Nat
  amount : Int
  transaction_ref : String
  status : String
  ttype : String
deriving DecidableEq

/-- The persistent store: the three logical collections of the spec plus
the auxiliary `momo_transfers` collection, a logical clock standing for
`datetime.utcnow()`, and the id counter standing for ObjectId generation. -/
structure State where
  users : List User
  projects : List Project
  transactions : List Txn
  momoTransfers : List MomoTransfer
  clock : Nat
  nextId : Nat
deriving DecidableEq

/-- Error outcomes of the handlers.  The first six are the deliberate
HTTP 4xx responses; `emailRegistered`/`ageRestriction` are the 400s of
`register`; `internalError` stands for a Python crash (HTTP 500), e.g.
subscripting the `None` returned by a failed `find_one`. -/
inductive ApiError where
  | notFound
  | projectNotOpen
  | belowMinimum
  | insufficientFunds
  | invalidAmount
  | alreadyCompleted
  | emailRegistered
  | ageRestriction
  | internalError
deriving DecidableEq

deriving instance DecidableEq for Except

/-- MongoDB `update_one`: rewrite the first element matching the filter,
leave everything else in place. -/
def updateFirst {α : Type} (q : α → Bool) (f : α → α) : List α → List α
  | [] => []
  | x :: xs => if q x then f x :: xs else x :: updateFirst q f xs

/-- `users.find_one({"_id": uid})`. -/
def findUser (s : State) (uid : Nat) : Option User :=
  s.users.find? (fun u => u.uid == uid)

/-- `projects.find_one({"_id": pid})`. -/
def findProject (s : State) (pid : Nat) : Option Project :=
  s.projects.find? (fun p => p.pid == pid)

/-- `auth.register`: age and email-uniqueness checks, then insert a new
user with `walletBalance 0`, `totalInvested 0`, `totalReturns 0`,
`verified False`, `blocked False`. -/
def register (s : State) (name email : String) (age : Nat) :
    State × Except ApiError Nat :=
  if age < 15 then (s, .error .ageRestriction)
  else if s.users.any (fun u => u.email == email) then (s, .error .emailRegistered)
  else
    ({ s with
        users := s.users ++
          [{ uid := s.nextId, name := name, email := email, age := age,
             walletBalance := 0, totalInvested := 0, totalReturns := 0,
             verified := false, blocked := false }],
        nextId := s.nextId + 1 },
     .ok s.nextId)

/-- `users.deposit`: reject non-positive amounts, `$inc` the wallet,
insert one `completed` `deposit` transaction, re-read and return the new
balance (a missing user crashes at `user["walletBalance"]` only after
the transaction insert, exactly as in the handler). -/
def deposit (s : State) (uid : Nat) (amount : Int) :
    State × Except ApiError Int :=
  if amount ≤ 0 then (s, .error .invalidAmount)
  else
    let s1 : State :=
      { s with
          users := updateFirst (fun u => u.uid == uid)
            (fun u => { u with walletBalance := u.walletBalance + amount }) s.users }
    let s2 : State :=
      { s1 with
          transactions := s1.transactions ++
            [{ userId := uid, amount := amount, ttype := "deposit",
               status := "completed", projectId := none, projectTitle := none,
               transaction_ref := none, confirmed_by := none,
               confirmed_at := none, date := s.clock }],
          clock := s1.clock + 1 }
    match findUser s2 uid with
    | some u => (s2, .ok u.walletBalance)
    | none => (s2, .error .internalError)

/-- `users.withdraw`: reject non-positive amounts, read the user, reject
when `walletBalance < amount`, `$inc` the wallet by `-amount`, insert one
`completed` `withdraw` transaction, return the re-read balance. -/
def withdraw (s : State) (uid : Nat) (amount : Int) :
    State × Except ApiError Int :=
  if amount ≤ 0 then (s, .error .invalidAmount)
  else
    match findUser s uid with
    | none => (s, .error .internalError)
    | some user =>
      if user.walletBalance < amount then (s, .error .insufficientFunds)
      else
        let s1 : State :=
          { s with
              users := updateFirst (fun u => u.uid == uid)
                (fun u => { u with walletBalance := u.walletBalance - amount }) s.users }
        let s2 : State :=
          { s1 with
              transactions := s1.transactions ++
                [{ userId := uid, amount := amount, ttype := "withdraw",
                   status := "completed", projectId := none, projectTitle := none,
                   transaction_ref := none, confirmed_by := none,
                   confirmed_at := none, date := s.clock }],
              clock := s1.clock + 1 }
        match findUser s2 uid with
        | some u2 => (s2, .ok u2.walletBalance)
        | none => (s2, .error .internalError)

/-- `projects.invest_in_project`: load project (404 if missing), reject
unless `status == "open"` (the `blocked` flag is NOT consulted), reject
`amount < minInvestment`, load user and reject `walletBalance < amount`;
then debit wallet / credit `totalInvested`, `$inc fundedAmount`, set the
recomputed status, `$push` one investors entry, insert one `completed`
`investment` transaction carrying the project-title snapshot, and return
the re-read `(walletBalance, totalInvested)`. -/
def invest (s : State) (uid pid : Nat) (amount : Int) :
    State × Except ApiError (Int × Int) :=
  match findProject s pid with
  | none => (s, .error .notFound)
  | some project =>
    if project.status ≠ "open" then (s, .error .projectNotOpen)
    else if amount < project.minInvestment then (s, .error .belowMinimum)
    else
      match findUser s uid with
      | none => (s, .error .internalError)
      | some user =>
        if user.walletBalance < amount then (s, .error .insufficientFunds)
        else
          let s1 : State :=
            { s with
                users := updateFirst (fun u => u.uid == uid)
                  (fun u => { u with
                      walletBalance := u.walletBalance - amount,
                      totalInvested := u.totalInvested + amount }) s.users }
          let newStatus : String :=
            if project.fundingGoal ≤ project.fundedAmount + amount
            then "closed" else "open"
          let s2 : State :=
            { s1 with
                projects := updateFirst (fun p => p.pid == pid)
                  (fun p => { p with
                      fundedAmount := p.fundedAmount + amount,
                      status := newStatus,
                      investors := p.investors ++
                        [{ userId := uid, amount := amount, date := s.clock }] })
                  s1.projects }
          let s3 : State :=
            { s2 with
                transactions := s2.transactions ++
                  [{ userId := uid, amount := amount, ttype := "investment",
                     status := "completed", projectId := some pid,
                     projectTitle := some project.title,
                     transaction_ref := none, confirmed_by := none,
                     confirmed_at := none, date := s.clock }],
                clock := s2.clock + 1 }
          match findUser s3 uid with
          | some u2 => (s3, .ok (u2.walletBalance, u2.totalInvested))
          | none => (s3, .error .internalError)

/-- `mobile_money.mobile_money_deposit` together with
`PersonalMoMoService.process_deposit_to_personal_momo`: 404 on a missing
user, reject `amount <= 0` and `amount < 100`; then record a transfer to
the personal MoMo account, `$inc` the wallet by `amount`, and insert one
`momo_deposit` platform transaction with status `"completed"`.  Returns
the generated `"WFD..."` transaction reference. -/
def mobileMoneyDeposit (s : State) (uid : Nat) (amount : Int) :
    State × Except ApiError String :=
  match findUser s uid with
  | none => (s, .error .notFound)
  | some _ =>
    if amount ≤ 0 then (s, .error .invalidAmount)
    else if amount < 100 then (s, .error .belowMinimum)
    else
      let tref : String := "WFD" ++ toString s.clock
      let s1 : State :=
        { s with
            momoTransfers := s.momoTransfers ++
              [{ user_id := uid, amount := amount, transaction_ref := tref,
                 status := "completed", ttype := "deposit_to_personal_momo" }] }
      let s2 : State :=
        { s1 with
            users := updateFirst (fun u => u.uid == uid)
              (fun u => { u with walletBalance := u.walletBalance + amount }) s1.users }
      let s3 : State :=
        { s2 with
            transactions := s2.transactions ++
              [{ userId := uid, amount := amount, ttype := "momo_deposit",
                 status := "completed", projectId := none, projectTitle := none,
                 transaction_ref := some tref, confirmed_by := none,
                 confirmed_at := none, date := s.clock }],
            clock := s2.clock + 1 }
      (s3, .ok tref)

/-- `mobile_money.mobile_money_withdraw`: 404 on a missing user, then —
in the handler's order — reject `walletBalance < amount`, `amount <= 0`,
`amount < 500`; insert one `pending` `mobile_withdrawal` transaction and
then `$inc` the wallet by `-amount`. -/
def mobileMoneyWithdraw (s : State) (uid : Nat) (amount : Int) :
    State × Except ApiError String :=
  match findUser s uid with
  | none => (s, .error .notFound)
  | some user =>
    if user.walletBalance < amount then (s, .error .insufficientFunds)
    else if amount ≤ 0 then (s, .error .invalidAmount)
    else if amount < 500 then (s, .error .belowMinimum)
    else
      let tref : String := "WFW" ++ toString s.clock
      let s1 : State :=
        { s with
            transactions := s.transactions ++
              [{ userId := uid, amount := amount, ttype := "mobile_withdrawal",
                 status := "pending", projectId := none, projectTitle := none,
                 transaction_ref := some tref, confirmed_by := none,
                 confirmed_at := none, date := s.clock }] }
      let s2 : State :=
        { s1 with
            users := updateFirst (fun u => u.uid == uid)
              (fun u => { u with walletBalance := u.walletBalance - amount }) s1.users,
            clock := s1.clock + 1 }
      (s2, .ok tref)

/-- `admin_enhanced.manual_confirm_deposit`: find the first transaction
matching `{transaction_ref, type: "momo_deposit"}` (404 if none), reject
with 400 if its status is already `"completed"`; otherwise `update_one`
by `{transaction_ref}` alone (exactly the handler's filter: the type is
not repeated) setting status/confirming admin/timestamp, then `$inc` the
wallet of the found transaction's user by its amount.  No new
transaction record is inserted. -/
def manualConfirmDeposit (s : State) (adminId : Nat) (tref : String) :
    State × Except ApiError Int :=
  match s.transactions.find?
      (fun t => t.transaction_ref == some tref && t.ttype == "momo_deposit") with
  | none => (s, .error .notFound)
  | some t =>
    if t.status == "completed" then (s, .error .alreadyCompleted)
    else
      let s1 : State :=
        { s with
            transactions := updateFirst
              (fun t2 => t2.transaction_ref == some tref)
              (fun t2 => { t2 with
                  status := "completed",
                  confirmed_by := some adminId, confirmed_at := some s.clock })
              s.transactions }
      let s2 : State :=
        { s1 with
            users := updateFirst (fun u => u.uid == t.userId)
              (fun u => { u with walletBalance := u.walletBalance + t.amount }) s1.users,
            clock := s1.clock + 1 }
      (s2, .ok t.amount)

/-- `admin.create_project`: insert a new project with `fundedAmount 0`,
status `"pending"`, `verified False`, `blocked False`, empty `investors`. -/
def createProject (s : State) (title : String) (fundingGoal minInvestment : Int) :
    State × Nat :=
  ({ s with
      projects := s.projects ++
        [{ pid := s.nextId, title := title, fundingGoal := fundingGoal,
           fundedAmount := 0, minInvestment := minInvestment,
           status := "pending", verified := false, blocked := false,
           investors := [] }],
      nextId := s.nextId + 1 },
   s.nextId)

/-- `admin.verify_project`: `$set {verified: True, status: "open"}` on the
first matching project (a no-op when the id matches nothing). -/
def verifyProject (s : State) (pid : Nat) : State :=
  { s with
      projects := updateFirst (fun p => p.pid == pid)
        (fun p => { p with verified := true, status := "open" }) s.projects }

/-- `admin.block_project`: `$set {blocked: b}` on the first matching
project. -/
def blockProject (s : State) (pid : Nat) (b : Bool) : State :=
  { s with
      projects := updateFirst (fun p => p.pid == pid)
        (fun p => { p with blocked := b }) s.projects }

/-- The `ProjectStatus` enum of `project_models.py`; pydantic rejects a
review whose status is not one of these. -/
def validStatus (st : String) : Bool :=
  st == "pending" || st == "under_review" || st == "approved" ||
  st == "rejected" || st == "open" || st == "funded" ||
  st == "closed" || st == "cancelled"

/-- `admin_enhanced.review_project`: 404 on a missing project, else set
`status` to the reviewed status and `verified` to `status == "approved"`. -/
def reviewProject (s : State) (pid : Nat) (st : String) :
    State × Except ApiError Unit :=
  if ¬ validStatus st then (s, .error .invalidAmount)
  else
    match findProject s pid with
    | none => (s, .error .notFound)
    | some _ =>
      ({ s with
          projects := updateFirst (fun p => p.pid == pid)
            (fun p => { p with status := st, verified := st == "approved" })
            s.projects },
       .ok ())

/-- The state-changing operations reachability ranges over. -/
inductive Op where
  | register (name email : String) (age : Nat)
  | deposit (uid : Nat) (amount : Int)
  | withdraw (uid : Nat) (amount : Int)
  | invest (uid pid : Nat) (amount : Int)
  | momoDeposit (uid : Nat) (amount : Int)
  | momoWithdraw (uid : Nat) (amount : Int)
  | confirmDeposit (adminId : Nat) (tref : String)
  | createProject (title : String) (fundingGoal minInvestment : Int)
  | verifyProject (pid : Nat)
  | blockProject (pid : Nat) (b : Bool)
  | reviewProject (pid : Nat) (st : String)

/-- The empty store. -/
def initState : State :=
  { users := [], projects := [], transactions := [], momoTransfers := [],
    clock := 0, nextId := 0 }

/-- Resulting state of one operation (an errored handler still returns
the state it left behind). -/
def applyOp (s : State) : Op → State
  | .register name email age => (register s name email age).1
  | .deposit uid amount => (deposit s uid amount).1
  | .withdraw uid amount => (withdraw s uid amount).1
  | .invest uid pid amount => (invest s uid pid amount).1
  | .momoDeposit uid amount => (mobileMoneyDeposit s uid amount).1
  | .momoWithdraw uid amount => (mobileMoneyWithdraw s uid amount).1
  | .confirmDeposit adminId tref => (manualConfirmDeposit s adminId tref).1
  | .createProject title goal minInv => (createProject s title goal minInv).1
  | .verifyProject pid => verifyProject s pid
  | .blockProject pid b => blockProject s pid b
  | .reviewProject pid st => (reviewProject s pid st).1

/-- Run a sequence of operations from the empty store. -/
def runOps (l : List Op) : State :=
  l.foldl applyOp initState

/-- A state is reachable when some operation sequence produces it. -/
def Reachable (s : State) : Prop :=
  ∃ l, runOps l = s

/-- Spec §3 User Account invariant: every wallet balance is non-negative. -/
def WalletInv (s : State) : Prop :=
  ∀ u ∈ s.users, 0 ≤ u.walletBalance

/-- Every `momo_deposit` ledger entry is already `completed` (the mobile
money deposit endpoint credits the wallet and writes the transaction as
`completed` at initiation). -/
def MomoInv (s : State) : Prop :=
  ∀ t ∈ s.transactions, t.ttype = "momo_deposit" → t.status = "completed"

/-- Spec §3 Project invariant: `fundedAmount` equals the sum of the
`investors` entry amounts. -/
def FundedInv (s : State) : Prop :=
  ∀ p ∈ s.projects, p.fundedAmount = (p.investors.map InvestorEntry.amount).sum

/-- The combined inductive invariant used for the reachability proofs. -/
def Inv (s : State) : Prop :=
  WalletInv s ∧ MomoInv s

/-- An admin creates, verifies and then blocks a project, and a member
registers and deposits: the project ends `status "open"` with
`blocked True`. -/
def c1Ops : List Op :=
  [Op.createProject "Hydro Dam" 5000 100, Op.verifyProject 0,
   Op.blockProject 0 true, Op.register "Bea" "bea@wefund.io" 22,
   Op.deposit 1 1000]

/-- The blocked-but-open store reached by `c1Ops`. -/
def sBlocked : State := runOps c1Ops

/-- A single freshly created (hence `pending`) project. -/
def pendOps : List Op := [Op.createProject "Tidal" 1000 100]

/-- The store reached by `pendOps`. -/
def sPend : State := runOps pendOps

/-- The pending project of `sPend`. -/
def pPend : Project :=
  { pid := 0, title := "Tidal", fundingGoal := 1000, fundedAmount := 0,
    minInvestment := 100, status := "pending", verified := false,
    blocked := false, investors := [] }

/-- The deposit-then-invest scenario of spec §8: a member with balance
1000 and an open project with goal 5000 and minimum 500. -/
def c2Ops : List Op :=
  [Op.register "Ada" "ada@wefund.io" 21, Op.deposit 0 1000,
   Op.createProject "Solar Farm" 5000 500, Op.verifyProject 1]

/-- The store reached by `c2Ops`. -/
def sAda : State := runOps c2Ops

/-- Ada's account in `sAda`. -/
def uAda : User :=
  { uid := 0, name := "Ada", email := "ada@wefund.io", age := 21,
    walletBalance := 1000, totalInvested := 0, totalReturns := 0,
    verified := false, blocked := false }

/-- The open project of `sAda`. -/
def pSolar : Project :=
  { pid := 1, title := "Solar Farm", fundingGoal := 5000, fundedAmount := 0,
    minInvestment := 500, status := "open", verified := true,
    blocked := false, investors := [] }

/-- A run exercising registration, mobile-money deposit, investment and
withdrawal. -/
def demoOps : List Op :=
  [Op.register "Dee" "dee@wefund.io" 25, Op.momoDeposit 0 800,
   Op.createProject "Wind" 3000 100, Op.verifyProject 1,
   Op.invest 0 1 600, Op.withdraw 0 100]

/-- Dee's account after `demoOps` (800 deposited, 600 invested, 100
withdrawn). -/
def uDee : User :=
  { uid := 0, name := "Dee", email := "dee@wefund.io", age := 25,
    walletBalance := 100, totalInvested := 600, totalReturns := 0,
    verified := false, blocked := false }

/-- The Wind project after `demoOps`, carrying one investor entry. -/
def pWind : Project :=
  { pid := 1, title := "Wind", fundingGoal := 3000, fundedAmount := 600,
    minInvestment := 100, status := "open", verified := true,
    blocked := false, investors := [{ userId := 0, amount := 600, date := 1 }] }

/-- A project with a (never validated) negative `minInvestment`,
verified open, plus a registered member. -/
def c5Ops : List Op :=
  [Op.createProject "Loss" 1000 (-100), Op.verifyProject 0,
   Op.register "Eve" "eve@wefund.io" 20]

/-- The project of `sAda` after Ada invests 1000 (goal 5000 not reached,
so it stays open). -/
def pSolarAfter : Project :=
  { pSolar with
      fundedAmount := 1000,
      investors := [{ userId := 0, amount := 1000, date := 1 }] }

/-- The exact-goal-closure scenario of spec §8: goal 1000, already
funded 900 by a first investment. -/
def c6Ops : List Op :=
  [Op.createProject "Bridge" 1000 100, Op.verifyProject 0,
   Op.register "Cy" "cy@wefund.io" 30, Op.deposit 1 2000,
   Op.invest 1 0 900]

/-- The store reached by `c6Ops`. -/
def sBridge : State := runOps c6Ops

/-- Cy's account in `sBridge` (2000 deposited, 900 invested). -/
def uCy : User :=
  { uid := 1, name := "Cy", email := "cy@wefund.io", age := 30,
    walletBalance := 1100, totalInvested := 900, totalReturns := 0,
    verified := false, blocked := false }

/-- The Bridge project in `sBridge`: funded 900 of 1000, still open. -/
def pBridge : Project :=
  { pid := 0, title := "Bridge", fundingGoal := 1000, fundedAmount := 900,
    minInvestment := 100, status := "open", verified := true,
    blocked := false, investors := [{ userId := 1, amount := 900, date := 1 }] }

/-- A hand-built pending `momo_deposit` ledger entry with external
reference `"R1"` (such an entry is what `manual_confirm_deposit` is
written to complete, even though the current deposit endpoint never
leaves one pending). -/
def tPend : Txn :=
  { userId := 0, amount := 250, ttype := "momo_deposit", status := "pending",
    projectId := none, projectTitle := none, transaction_ref := some "R1",
    confirmed_by := none, confirmed_at := none, date := 0 }

/-- The owner of the pending deposit `tPend`. -/
def uFay : User :=
  { uid := 0, name := "Fay", email := "fay@wefund.io", age := 33,
    walletBalance := 10, totalInvested := 0, totalReturns := 0,
    verified := true, blocked := false }

/-- A store holding exactly the pending deposit `tPend` for `uFay`. -/
def sFay : State :=
  { users := [uFay], projects := [], transactions := [tPend],
    momoTransfers := [], clock := 5, nextId := 1 }

/-- A member registers and mobile-money-deposits 200; the endpoint
writes the `momo_deposit` transaction `"WFD0"` already `completed`. -/
def c10Ops : List Op :=
  [Op.register "Eli" "eli@wefund.io" 28, Op.momoDeposit 0 200]

/-- The `momo_deposit` ledger entry produced by `c10Ops`. -/
def tEli : Txn :=
  { userId := 0, amount := 200, ttype := "momo_deposit", status := "completed",
    projectId := none, projectTitle := none, transaction_ref := some "WFD0",
    confirmed_by := none, confirmed_at := none, date := 0 }

/-- The withdraw-exceeding-balance scenario of spec §8: balance 200. -/
def c9Ops : List Op :=
  [Op.register "Gil" "gil@wefund.io" 40, Op.deposit 0 200]

/-- The store reached by `c9Ops`. -/
def sGil : State := runOps c9Ops

/-- Gil's account in `sGil`. -/
def uGil : User :=
  { uid := 0, name := "Gil", email := "gil@wefund.io", age := 40,
    walletBalance := 200, totalInvested := 0, totalReturns := 0,
    verified := false, blocked := false }

theorem updateFirst_length {α : Type} (q : α → Bool) (f : α → α) :
    ∀ l : List α, (updateFirst q f l).length = l.length := by
  intro l
  induction l with
  | nil => rfl
  | cons x xs ih =>
    by_cases h : q x = true
    · simp [updateFirst, h]
    · simp [updateFirst, h, ih]

theorem mem_updateFirst {α : Type} {q : α → Bool} {f : α → α} {l : List α} {y : α}
    (hy : y ∈ updateFirst q f l) :
    y ∈ l ∨ ∃ x, l.find? q = some x ∧ y = f x := by
  induction l with
  | nil => simp [updateFirst] at hy
  | cons x xs ih =>
    by_cases h : q x = true
    · simp only [updateFirst, h, if_pos] at hy
      rcases List.mem_cons.mp hy with h1 | h1
      · exact Or.inr ⟨x, by simp [List.find?_cons_of_pos _ h], h1⟩
      · exact Or.inl (List.mem_cons_of_mem _ h1)
    · simp only [updateFirst, h, if_neg, Bool.false_eq_true, not_false_iff] at hy
      rcases List.mem_cons.mp hy with h1 | h1
      · exact Or.inl (h1 ▸ List.mem_cons_self x xs)
      · rcases ih h1 with h2 | ⟨z, hz1, hz2⟩
        · exact Or.inl (List.mem_cons_of_mem _ h2)
        · refine Or.inr ⟨z, ?_, hz2⟩
          rw [List.find?_cons_of_neg _ (by simp [h]), hz1]

theorem mem_updateFirst_weak {α : Type} {q : α → Bool} {f : α → α} {l : List α} {y : α}
    (hy : y ∈ updateFirst q f l) :
    y ∈ l ∨ ∃ x ∈ l, y = f x := by
  rcases mem_updateFirst hy with h | ⟨x, hx, hfx⟩
  · exact Or.inl h
  · exact Or.inr ⟨x, List.mem_of_find?_eq_some hx, hfx⟩

theorem find?_updateFirst_same {α : Type} {q : α → Bool} {f : α → α}
    (hqf : ∀ x, q x = true → q (f x) = true) :
    ∀ l : List α, (updateFirst q f l).find? q = (l.find? q).map f := by
  intro l
  induction l with
  | nil => rfl
  | cons x xs ih =>
    by_cases h : q x = true
    · simp [updateFirst, h, List.find?_cons_of_pos _ h,
        List.find?_cons_of_pos _ (hqf x h)]
    · rw [updateFirst, if_neg (by simp [h]),
        List.find?_cons_of_neg _ (by simp [h]),
        List.find?_cons_of_neg _ (by simp [h]), ih]

theorem find?_updateFirst_of_first {α : Type} {q1 q2 : α → Bool} {f : α → α}
    {l : List α} {t : α}
    (himp : ∀ x, q2 x = true → q1 x = true)
    (h1 : l.find? q1 = some t) (h2 : l.find? q2 = some t)
    (h3 : q2 (f t) = true) :
    (updateFirst q1 f l).find? q2 = some (f t) := by
  induction l with
  | nil => simp at h1
  | cons x xs ih =>
    by_cases hx1 : q1 x = true
    · rw [List.find?_cons_of_pos _ hx1, Option.some.injEq] at h1
      subst h1
      rw [updateFirst, if_pos hx1, List.find?_cons_of_pos _ h3]
    · have hx2 : ¬ q2 x = true := fun hc => hx1 (himp x hc)
      rw [List.find?_cons_of_neg _ (by simp [hx1])] at h1
      rw [List.find?_cons_of_neg _ (by simp [hx2])] at h2
      rw [updateFirst, if_neg (by simp [hx1]),
        List.find?_cons_of_neg _ (by simp [hx2])]
      exact ih h1 h2

theorem getElem?_updateFirst {α : Type} {q : α → Bool} {f : α → α}
    {l : List α} {i : Nat} {y : α}
    (hy : (updateFirst q f l)[i]? = some y) :
    ∃ x, l[i]? = some x ∧ (y = x ∨ (l.find? q = some x ∧ y = f x)) := by
  induction l generalizing i with
  | nil => simp [updateFirst] at hy
  | cons x xs ih =>
    by_cases h : q x = true
    · rw [updateFirst, if_pos h] at hy
      cases i with
      | zero =>
        refine ⟨x, by simp, Or.inr ⟨List.find?_cons_of_pos _ h, ?_⟩⟩
        simpa using hy.symm
      | succ n =>
        refine ⟨y, ?_, Or.inl rfl⟩
        simpa using hy
    · rw [updateFirst, if_neg (by simp [h])] at hy
      cases i with
      | zero =>
        refine ⟨x, by simp, Or.inl ?_⟩
        simpa using hy.symm
      | succ n =>
        rcases ih (by simpa using hy) with ⟨z, hz1, hz2⟩
        refine ⟨z, by simpa using hz1, ?_⟩
        rcases hz2 with h2 | ⟨h2, h3⟩
        · exact Or.inl h2
        · exact Or.inr ⟨by rw [List.find?_cons_of_neg _ (by simp [h])]; exact h2, h3⟩

/-- Preserving non-negative balances through a MongoDB-style
`update_one`: the untouched users keep their balance, and the (single)
rewritten user is the first filter match. -/
theorem walletList_updateFirst {q : User → Bool} {f : User → User} {l : List User}
    (h : ∀ u ∈ l, 0 ≤ u.walletBalance)
    (hf : ∀ x, l.find? q = some x → 0 ≤ (f x).walletBalance) :
    ∀ u ∈ updateFirst q f l, 0 ≤ u.walletBalance := by
  intro u hu
  rcases mem_updateFirst hu with h1 | ⟨x, hx1, hx2⟩
  · exact h u h1
  · exact hx2 ▸ hf x hx1

theorem inv_register {s : State} {name email : String} {age : Nat} (h : Inv s) :
    Inv (register s name email age).1 := by
  unfold register
  split
  · exact h
  · split
    · exact h
    · constructor
      · intro u hu
        rcases List.mem_append.mp hu with h1 | h1
        · exact h.1 u h1
        · simp at h1
          rw [h1]

      · exact h.2

theorem inv_deposit {s : State} {uid : Nat} {amount : Int} (h : Inv s) :
    Inv (deposit s uid amount).1 := by
  unfold deposit
  split
  · exact h
  · rename_i hamt
    dsimp only
    split
    all_goals {
      constructor
      · refine walletList_updateFirst h.1 ?_
        intro x hx
        have hx1 : 0 ≤ x.walletBalance :=
          h.1 x (List.mem_of_find?_eq_some hx)
        have : ¬ amount ≤ 0 := hamt
        simp only []
        linarith
      · intro t ht
        rcases List.mem_append.mp ht with h1 | h1
        · exact h.2 t h1
        · intro hty
          simp at h1
          rw [h1] at hty
          simp at hty
    }

theorem inv_withdraw {s : State} {uid : Nat} {amount : Int} (h : Inv s) :
    Inv (withdraw s uid amount).1 := by
  unfold withdraw
  split
  · exact h
  · rename_i hamt
    split
    · exact h
    · rename_i user huser
      split
      · exact h
      · rename_i hbal
        dsimp only
        split
        all_goals {
          constructor
          · refine walletList_updateFirst h.1 ?_
            intro x hx
            have hxu : x = user := by
              have h2 : findUser s uid = some x := hx
              rw [huser] at h2
              exact (Option.some.injEq _ _ ▸ h2).symm
            subst hxu
            have hbal2 : amount ≤ x.walletBalance := not_lt.mp hbal
            simp only []
            linarith
          · intro t ht
            rcases List.mem_append.mp ht with h1 | h1
            · exact h.2 t h1
            · intro hty
              simp at h1
              rw [h1] at hty
              simp at hty
        }

theorem inv_invest {s : State} {uid pid : Nat} {amount : Int} (h : Inv s) :
    Inv (invest s uid pid amount).1 := by
  unfold invest
  split
  · exact h
  · split
    · exact h
    · split
      · exact h
      · split
        · exact h
        · rename_i project hproj hopen hmin user huser
          split
          · exact h
          · rename_i hbal
            dsimp only
            split
            all_goals {
              constructor
              · refine walletList_updateFirst h.1 ?_
                intro x hx
                have hxu : x = user := by
                  have h2 : findUser s uid = some x := hx
                  rw [huser] at h2
                  exact (Option.some.injEq _ _ ▸ h2).symm
                subst hxu
                have hbal2 : amount ≤ x.walletBalance := not_lt.mp hbal
                simp only []
                linarith
              · intro t ht
                rcases List.mem_append.mp ht with h1 | h1
                · exact h.2 t h1
                · intro hty
                  simp at h1
                  rw [h1] at hty
                  simp at hty
            }

theorem inv_mobileMoneyDeposit {s : State} {uid : Nat} {amount : Int} (h : Inv s) :
    Inv (mobileMoneyDeposit s uid amount).1 := by
  unfold mobileMoneyDeposit
  split
  · exact h
  · split
    · exact h
    · split
      · exact h
      · rename_i hamt hmin
        dsimp only
        constructor
        · refine walletList_updateFirst h.1 ?_
          intro x hx
          have hx1 : 0 ≤ x.walletBalance :=
            h.1 x (List.mem_of_find?_eq_some hx)
          have : ¬ amount ≤ 0 := hamt
          simp only []
          linarith
        · intro t ht
          rcases List.mem_append.mp ht with h1 | h1
          · exact h.2 t h1
          · intro _
            simp at h1
            rw [h1]

theorem inv_mobileMoneyWithdraw {s : State} {uid : Nat} {amount : Int} (h : Inv s) :
    Inv (mobileMoneyWithdraw s uid amount).1 := by
  unfold mobileMoneyWithdraw
  split
  · exact h
  · rename_i user huser
    split
    · exact h
    · split
      · exact h
      · split
        · exact h
        · rename_i hbal hamt hmin
          dsimp only
          constructor
          · refine walletList_updateFirst h.1 ?_
            intro x hx
            have hxu : x = user := by
              have h2 : findUser s uid = some x := hx
              rw [huser] at h2
              exact (Option.some.injEq _ _ ▸ h2).symm
            subst hxu
            have hbal2 : amount ≤ x.walletBalance := not_lt.mp hbal
            simp only []
            linarith
          · intro t ht
            rcases List.mem_append.mp ht with h1 | h1
            · exact h.2 t h1
            · intro hty
              simp at h1
              rw [h1] at hty
              simp at hty

theorem inv_manualConfirmDeposit {s : State} {adminId : Nat} {tref : String}
    (h : Inv s) : Inv (manualConfirmDeposit s adminId tref).1 := by
  unfold manualConfirmDeposit
  split
  · exact h
  · rename_i t ht
    split
    · exact h
    · rename_i hst
      exfalso
      have hpred := List.find?_some ht
      simp only [Bool.and_eq_true, beq_iff_eq] at hpred
      have hc := h.2 t (List.mem_of_find?_eq_some ht) hpred.2
      simp [hc] at hst

theorem inv_createProject {s : State} {title : String} {goal minInv : Int}
    (h : Inv s) : Inv (createProject s title goal minInv).1 := by
  exact h

theorem inv_verifyProject {s : State} {pid : Nat} (h : Inv s) :
    Inv (verifyProject s pid) := by
  exact h

theorem inv_blockProject {s : State} {pid : Nat} {b : Bool} (h : Inv s) :
    Inv (blockProject s pid b) := by
  exact h

theorem inv_reviewProject {s : State} {pid : Nat} {st : String} (h : Inv s) :
    Inv (reviewProject s pid st).1 := by
  unfold reviewProject
  split
  · exact h
  · split
    · exact h
    · exact h

theorem inv_applyOp {s : State} (h : Inv s) (op : Op) : Inv (applyOp s op) := by
  cases op with
  | register name email age => exact inv_register h
  | deposit uid amount => exact inv_deposit h
  | withdraw uid amount => exact inv_withdraw h
  | invest uid pid amount => exact inv_invest h
  | momoDeposit uid amount => exact inv_mobileMoneyDeposit h
  | momoWithdraw uid amount => exact inv_mobileMoneyWithdraw h
  | confirmDeposit adminId tref => exact inv_manualConfirmDeposit h
  | createProject title goal minInv => exact inv_createProject h
  | verifyProject pid => exact inv_verifyProject h
  | blockProject pid b => exact inv_blockProject h
  | reviewProject pid st => exact inv_reviewProject h

theorem inv_foldl {l : List Op} : ∀ {s : State}, Inv s → Inv (l.foldl applyOp s) := by
  induction l with
  | nil => intro s h; exact h
  | cons op rest ih => intro s h; exact ih (inv_applyOp h op)

theorem inv_initState : Inv initState := by
  constructor
  · intro u hu
    simp [initState] at hu
  · intro t ht
    simp [initState] at ht

theorem reachable_inv {s : State} (h : Reachable s) : Inv s := by
  rcases h with ⟨l, rfl⟩
  exact inv_foldl inv_initState

theorem all_updateFirst {α : Type} {P : α → Prop} {q : α → Bool} {f : α → α}
    {l : List α} (h : ∀ x ∈ l, P x) (hf : ∀ x ∈ l, P x → P (f x)) :
    ∀ y ∈ updateFirst q f l, P y := by
  intro y hy
  rcases mem_updateFirst_weak hy with h1 | ⟨x, hx, rfl⟩
  · exact h y h1
  · exact hf x hx (h x hx)

theorem fundedInv_invest {s : State} {uid pid : Nat} {amount : Int}
    (h : FundedInv s) : FundedInv (invest s uid pid amount).1 := by
  unfold invest
  split
  · exact h
  · split
    · exact h
    · split
      · exact h
      · split
        · exact h
        · split
          · exact h
          · dsimp only
            split
            all_goals {
              refine all_updateFirst h ?_
              intro x _ hx
              simp only [List.map_append, List.sum_append, hx, List.map_cons,
                List.map_nil, List.sum_cons, List.sum_nil]
              ring
            }

theorem fundedInv_register {s : State} {name email : String} {age : Nat}
    (h : FundedInv s) : FundedInv (register s name email age).1 := by
  unfold register
  split
  · exact h
  · split
    · exact h
    · exact h

theorem fundedInv_deposit {s : State} {uid : Nat} {amount : Int}
    (h : FundedInv s) : FundedInv (deposit s uid amount).1 := by
  unfold deposit
  split
  · exact h
  · dsimp only
    split
    · exact h
    · exact h

theorem fundedInv_withdraw {s : State} {uid : Nat} {amount : Int}
    (h : FundedInv s) : FundedInv (withdraw s uid amount).1 := by
  unfold withdraw
  split
  · exact h
  · split
    · exact h
    · split
      · exact h
      · dsimp only
        split
        · exact h
        · exact h

theorem fundedInv_mobileMoneyDeposit {s : State} {uid : Nat} {amount : Int}
    (h : FundedInv s) : FundedInv (mobileMoneyDeposit s uid amount).1 := by
  unfold mobileMoneyDeposit
  split
  · exact h
  · split
    · exact h
    · split
      · exact h
      · exact h

theorem fundedInv_mobileMoneyWithdraw {s : State} {uid : Nat} {amount : Int}
    (h : FundedInv s) : FundedInv (mobileMoneyWithdraw s uid amount).1 := by
  unfold mobileMoneyWithdraw
  split
  · exact h
  · split
    · exact h
    · split
      · exact h
      · split
        · exact h
        · exact h

theorem fundedInv_manualConfirmDeposit {s : State} {adminId : Nat} {tref : String}
    (h : FundedInv s) : FundedInv (manualConfirmDeposit s adminId tref).1 := by
  unfold manualConfirmDeposit
  split
  · exact h
  · split
    · exact h
    · exact h

theorem fundedInv_createProject {s : State} {title : String} {goal minInv : Int}
    (h : FundedInv s) : FundedInv (createProject s title goal minInv).1 := by
  unfold createProject
  intro p hp
  rcases List.mem_append.mp hp with h1 | h1
  · exact h p h1
  · simp at h1
    rw [h1]
    simp

theorem fundedInv_verifyProject {s : State} {pid : Nat}
    (h : FundedInv s) : FundedInv (verifyProject s pid) := by
  unfold verifyProject
  refine all_updateFirst h ?_
  intro x _ hx
  exact hx

theorem fundedInv_blockProject {s : State} {pid : Nat} {b : Bool}
    (h : FundedInv s) : FundedInv (blockProject s pid b) := by
  unfold blockProject
  refine all_updateFirst h ?_
  intro x _ hx
  exact hx

theorem fundedInv_reviewProject {s : State} {pid : Nat} {st : String}
    (h : FundedInv s) : FundedInv (reviewProject s pid st).1 := by
  unfold reviewProject
  split
  · exact h
  · split
    · exact h
    · refine all_updateFirst h ?_
      intro x _ hx
      exact hx

theorem fundedInv_applyOp {s : State} (h : FundedInv s) (op : Op) :
    FundedInv (applyOp s op) := by
  cases op with
  | register name email age => exact fundedInv_register h
  | deposit uid amount => exact fundedInv_deposit h
  | withdraw uid amount => exact fundedInv_withdraw h
  | invest uid pid amount => exact fundedInv_invest h
  | momoDeposit uid amount => exact fundedInv_mobileMoneyDeposit h
  | momoWithdraw uid amount => exact fundedInv_mobileMoneyWithdraw h
  | confirmDeposit adminId tref => exact fundedInv_manualConfirmDeposit h
  | createProject title goal minInv => exact fundedInv_createProject h
  | verifyProject pid => exact fundedInv_verifyProject h
  | blockProject pid b => exact fundedInv_blockProject h
  | reviewProject pid st => exact fundedInv_reviewProject h

theorem fundedInv_foldl {l : List Op} :
    ∀ {s : State}, FundedInv s → FundedInv (l.foldl applyOp s) := by
  induction l with
  | nil => intro s h; exact h
  | cons op rest ih => intro s h; exact ih (fundedInv_applyOp h op)

theorem fundedInv_initState : FundedInv initState := by
  intro p hp
  simp [initState] at hp

theorem reachable_fundedInv {s : State} (h : Reachable s) : FundedInv s := by
  rcases h with ⟨l, rfl⟩
  exact fundedInv_foldl fundedInv_initState

theorem findUser_mk {us : List User} {ps : List Project} {ts : List Txn}
    {ms : List MomoTransfer} {ck ni uid : Nat} :
    findUser ⟨us, ps, ts, ms, ck, ni⟩ uid = us.find? (fun u => u.uid == uid) := rfl

theorem findProject_mk {us : List User} {ps : List Project} {ts : List Txn}
    {ms : List MomoTransfer} {ck ni pid : Nat} :
    findProject ⟨us, ps, ts, ms, ck, ni⟩ pid = ps.find? (fun p => p.pid == pid) := rfl

/-- Shared success story of `withdraw`: with a positive amount covered by
the balance, the handler returns the decremented balance, rewrites only
that user, and appends exactly one `completed` `withdraw` transaction. -/
theorem withdraw_ok {s : State} {uid : Nat} {amount : Int} {u : User}
    (hu : findUser s uid = some u)
    (hpos : 0 < amount) (hle : amount ≤ u.walletBalance) :
    (withdraw s uid amount).2 = .ok (u.walletBalance - amount) ∧
    findUser (withdraw s uid amount).1 uid =
      some { u with walletBalance := u.walletBalance - amount } ∧
    (withdraw s uid amount).1.transactions = s.transactions ++
      [{ userId := uid, amount := amount, ttype := "withdraw", status := "completed",
         projectId := none, projectTitle := none, transaction_ref := none,
         confirmed_by := none, confirmed_at := none, date := s.clock }] := by
  have hfind2 : findUser
      { s with
          users := updateFirst (fun x => x.uid == uid)
            (fun x => { x with walletBalance := x.walletBalance - amount }) s.users }
      uid = some { u with walletBalance := u.walletBalance - amount } := by
    unfold findUser
    rw [find?_updateFirst_same (by intro x hx; simpa using hx)]
    unfold findUser at hu
    simp [hu]
  simp only [withdraw, hu, if_neg (show ¬ amount ≤ 0 by linarith),
    if_neg (not_lt.mpr hle)]
  rw [show (findUser
      { users :=
          updateFirst (fun x => x.uid == uid)
            (fun x => { x with walletBalance := x.walletBalance - amount }) s.users,
        projects := s.projects,
        transactions := s.transactions ++
          [{ userId := uid, amount := amount, ttype := "withdraw", status := "completed",
             projectId := none, projectTitle := none, transaction_ref := none,
             confirmed_by := none, confirmed_at := none, date := s.clock }],
        momoTransfers := s.momoTransfers, clock := s.clock + 1, nextId := s.nextId }
      uid) = some { u with walletBalance := u.walletBalance - amount } from hfind2]
  exact ⟨rfl, hfind2, rfl⟩

/-- Shared success story of `invest_in_project`: with the project open,
the amount at least the minimum and covered by the wallet, the handler
returns the updated `(walletBalance, totalInvested)`, rewrites exactly
that user and that project (goal comparison against the incremented
total, one investor entry appended), and appends exactly one `completed`
`investment` transaction carrying the title snapshot. -/
theorem invest_ok {s : State} {uid pid : Nat} {amount : Int} {u : User} {p : Project}
    (hu : findUser s uid = some u) (hp : findProject s pid = some p)
    (hopen : p.status = "open") (hmin : ¬ amount < p.minInvestment)
    (hbal : ¬ u.walletBalance < amount) :
    (invest s uid pid amount).2 =
      .ok (u.walletBalance - amount, u.totalInvested + amount) ∧
    findUser (invest s uid pid amount).1 uid =
      some { u with walletBalance := u.walletBalance - amount,
                    totalInvested := u.totalInvested + amount } ∧
    findProject (invest s uid pid amount).1 pid =
      some { p with
              fundedAmount := p.fundedAmount + amount,
              status := if p.fundingGoal ≤ p.fundedAmount + amount
                        then "closed" else "open",
              investors := p.investors ++
                [{ userId := uid, amount := amount, date := s.clock }] } ∧
    (invest s uid pid amount).1.transactions = s.transactions ++
      [{ userId := uid, amount := amount, ttype := "investment",
         status := "completed", projectId := some pid,
         projectTitle := some p.title, transaction_ref := none,
         confirmed_by := none, confirmed_at := none, date := s.clock }] := by
  have hu2 : s.users.find? (fun x => x.uid == uid) = some u := hu
  have hp2 : s.projects.find? (fun x => x.pid == pid) = some p := hp
  simp only [invest, hp, hu, if_neg (not_not_intro hopen), if_neg hmin, if_neg hbal]
  rw [findUser_mk, find?_updateFirst_same (by intro x hx; simpa using hx), hu2]
  simp only [Option.map_some']
  refine ⟨trivial, ?_, ?_, trivial⟩
  · rw [findUser_mk, find?_updateFirst_same (by intro x hx; simpa using hx), hu2]
    rfl
  · rw [findProject_mk, find?_updateFirst_same (by intro x hx; simpa using hx), hp2]
    rfl

theorem projectsEq_register {s : State} {n e : String} {a : Nat} :
    ((register s n e a).1).projects = s.projects := by
  unfold register
  split
  · rfl
  · split
    · rfl
    · rfl

theorem projectsEq_deposit {s : State} {uid : Nat} {amount : Int} :
    ((deposit s uid amount).1).projects = s.projects := by
  unfold deposit
  split
  · rfl
  · dsimp only
    split
    · rfl
    · rfl

theorem projectsEq_withdraw {s : State} {uid : Nat} {amount : Int} :
    ((withdraw s uid amount).1).projects = s.projects := by
  unfold withdraw
  split
  · rfl
  · split
    · rfl
    · split
      · rfl
      · dsimp only
        split
        · rfl
        · rfl

theorem projectsEq_momoDeposit {s : State} {uid : Nat} {amount : Int} :
    ((mobileMoneyDeposit s uid amount).1).projects = s.projects := by
  unfold mobileMoneyDeposit
  split
  · rfl
  · split
    · rfl
    · split
      · rfl
      · rfl

theorem projectsEq_momoWithdraw {s : State} {uid : Nat} {amount : Int} :
    ((mobileMoneyWithdraw s uid amount).1).projects = s.projects := by
  unfold mobileMoneyWithdraw
  split
  · rfl
  · split
    · rfl
    · split
      · rfl
      · split
        · rfl
        · rfl

theorem projectsEq_confirm {s : State} {adminId : Nat} {tref : String} :
    ((manualConfirmDeposit s adminId tref).1).projects = s.projects := by
  unfold manualConfirmDeposit
  split
  · rfl
  · split
    · rfl
    · rfl

/-- Claim C5 (amended): for a project whose `minInvestment` is
non-negative, `fundedAmount` is monotonically non-decreasing under every
operation of the system (Invest is the only mutator, and its accepted
amount is then at least `minInvestment ≥ 0`); without that restriction
the claim is false, because `InvestmentRequest.amount` is an
unconstrained float and a negative amount clearing a negative
`minInvestment` is accepted and decreases `fundedAmount`. -/
theorem C5_fundedAmount_monotone (s : State) (op : Op) {i : Nat} {p p2 : Project}
    (hp : s.projects[i]? = some p) (hp2 : (applyOp s op).projects[i]? = some p2)
    (hmin : 0 ≤ p.minInvestment) :
    p.fundedAmount ≤ p2.fundedAmount := by
  cases op with
  | register n e a =>
    rw [show (applyOp s (Op.register n e a)).projects = s.projects from
      projectsEq_register, hp] at hp2
    cases hp2
    exact le_refl _
  | deposit uid amount =>
    rw [show (applyOp s (Op.deposit uid amount)).projects = s.projects from
      projectsEq_deposit, hp] at hp2
    cases hp2
    exact le_refl _
  | withdraw uid amount =>
    rw [show (applyOp s (Op.withdraw uid amount)).projects = s.projects from
      projectsEq_withdraw, hp] at hp2
    cases hp2
    exact le_refl _
  | momoDeposit uid amount =>
    rw [show (applyOp s (Op.momoDeposit uid amount)).projects = s.projects from
      projectsEq_momoDeposit, hp] at hp2
    cases hp2
    exact le_refl _
  | momoWithdraw uid amount =>
    rw [show (applyOp s (Op.momoWithdraw uid amount)).projects = s.projects from
      projectsEq_momoWithdraw, hp] at hp2
    cases hp2
    exact le_refl _
  | confirmDeposit adminId tref =>
    rw [show (applyOp s (Op.confirmDeposit adminId tref)).projects = s.projects from
      projectsEq_confirm, hp] at hp2
    cases hp2
    exact le_refl _
  | createProject title goal minInv =>
    have hlt : i < s.projects.length := (List.getElem?_eq_some.mp hp).1
    have hp2b : ((createProject s title goal minInv).1).projects[i]? = some p2 := hp2
    unfold createProject at hp2b
    dsimp only at hp2b
    rw [List.getElem?_append, if_pos hlt, hp] at hp2b
    cases hp2b
    exact le_refl _
  | verifyProject pid =>
    have hp2b : (updateFirst (fun x => x.pid == pid)
        (fun x => { x with verified := true, status := "open" }) s.projects)[i]? =
        some p2 := hp2
    rcases getElem?_updateFirst hp2b with ⟨x, hx, hcase⟩
    rw [hp] at hx
    cases hx
    rcases hcase with rfl | ⟨hfind, rfl⟩
    · exact le_refl _
    · exact le_refl _
  | blockProject pid b =>
    have hp2b : (updateFirst (fun x => x.pid == pid)
        (fun x => { x with blocked := b }) s.projects)[i]? = some p2 := hp2
    rcases getElem?_updateFirst hp2b with ⟨x, hx, hcase⟩
    rw [hp] at hx
    cases hx
    rcases hcase with rfl | ⟨hfind, rfl⟩
    · exact le_refl _
    · exact le_refl _
  | reviewProject pid st =>
    have hp2b : ((reviewProject s pid st).1).projects[i]? = some p2 := hp2
    unfold reviewProject at hp2b
    split at hp2b
    · rw [hp] at hp2b
      cases hp2b
      exact le_refl _
    · split at hp2b
      · rw [hp] at hp2b
        cases hp2b
        exact le_refl _
      · dsimp only at hp2b
        rcases getElem?_updateFirst hp2b with ⟨x, hx, hcase⟩
        rw [hp] at hx
        cases hx
        rcases hcase with rfl | ⟨hfind, rfl⟩
        · exact le_refl _
        · exact le_refl _
  | invest uid pid amount =>
    have hp2b : ((invest s uid pid amount).1).projects[i]? = some p2 := hp2
    unfold invest at hp2b
    split at hp2b
    · rw [hp] at hp2b
      cases hp2b
      exact le_refl _
    · rename_i project hproj
      split at hp2b
      · rw [hp] at hp2b
        cases hp2b
        exact le_refl _
      · split at hp2b
        · rw [hp] at hp2b
          cases hp2b
          exact le_refl _
        · rename_i hopen hminb
          split at hp2b
          · rw [hp] at hp2b
            cases hp2b
            exact le_refl _
          · split at hp2b
            · rw [hp] at hp2b
              cases hp2b
              exact le_refl _
            · dsimp only at hp2b
              split at hp2b
              all_goals {
                dsimp only at hp2b
                rcases getElem?_updateFirst hp2b with ⟨x, hx, hcase⟩
                rw [hp] at hx
                cases hx
                rcases hcase with rfl | ⟨hfind, rfl⟩
                · exact le_refl _
                · have hpx : findProject s pid = some p := hfind
                  rw [hproj] at hpx
                  cases hpx
                  have hge : p.minInvestment ≤ amount := not_lt.mp hminb
                  simp only []
                  linarith
              }

theorem deposit_cases (s : State) (uid : Nat) (amount : Int) :
    (deposit s uid amount).1 = s ∨ (∃ r, (deposit s uid amount).2 = .ok r) ∨
    (deposit s uid amount).2 = .error .internalError := by
  unfold deposit
  split
  · exact Or.inl rfl
  · dsimp only
    split
    · exact Or.inr (Or.inl ⟨_, rfl⟩)
    · exact Or.inr (Or.inr rfl)

theorem withdraw_cases (s : State) (uid : Nat) (amount : Int) :
    (withdraw s uid amount).1 = s ∨ (∃ r, (withdraw s uid amount).2 = .ok r) ∨
    (withdraw s uid amount).2 = .error .internalError := by
  unfold withdraw
  split
  · exact Or.inl rfl
  · split
    · exact Or.inl rfl
    · split
      · exact Or.inl rfl
      · dsimp only
        split
        · exact Or.inr (Or.inl ⟨_, rfl⟩)
        · exact Or.inr (Or.inr rfl)

theorem invest_cases (s : State) (uid pid : Nat) (amount : Int) :
    (invest s uid pid amount).1 = s ∨ (∃ r, (invest s uid pid amount).2 = .ok r) ∨
    (invest s uid pid amount).2 = .error .internalError := by
  unfold invest
  split
  · exact Or.inl rfl
  · split
    · exact Or.inl rfl
    · split
      · exact Or.inl rfl
      · split
        · exact Or.inl rfl
        · split
          · exact Or.inl rfl
          · dsimp only
            split
            · exact Or.inr (Or.inl ⟨_, rfl⟩)
            · exact Or.inr (Or.inr rfl)

theorem confirm_cases (s : State) (adminId : Nat) (tref : String) :
    (manualConfirmDeposit s adminId tref).1 = s ∨
    (∃ r, (manualConfirmDeposit s adminId tref).2 = .ok r) ∨
    (manualConfirmDeposit s adminId tref).2 = .error .internalError := by
  unfold manualConfirmDeposit
  split
  · exact Or.inl rfl
  · split
    · exact Or.inl rfl
    · exact Or.inr (Or.inl ⟨_, rfl⟩)

/-- Claim C1 (amended): `invest_in_project` raises `ProjectNotOpen`
exactly when the loaded project's `status` differs from `"open"`, and a
`ProjectNotOpen` failure leaves the store untouched; the `blocked` flag
is never consulted, so no other branch of the handler can produce this
error — in particular a blocked project whose status is `"open"` is not
rejected (see the counterexample theorem for the original claim). -/
theorem C1_invest_ignores_blocked {s : State} {uid pid : Nat} {amount : Int} {p : Project}
    (hp : findProject s pid = some p) :
    (p.status ≠ "open" → invest s uid pid amount = (s, .error .projectNotOpen)) ∧
    (p.status = "open" → ∀ e, (invest s uid pid amount).2 = .error e →
      e ≠ .projectNotOpen) := by
  constructor
  · intro hne
    simp only [invest, hp, if_pos hne]
  · intro hopen e he hcontra
    subst hcontra
    simp only [invest, hp, if_neg (not_not_intro hopen)] at he
    split at he
    · simp at he
    · split at he
      · simp at he
      · split at he
        · simp at he
        · split at he
          · simp at he
          · simp at he


theorem confirm_already {s : State} {adminId : Nat} {tref : String} {t : Txn}
    (hfind : s.transactions.find?
      (fun t2 => t2.transaction_ref == some tref && t2.ttype == "momo_deposit") = some t)
    (hdone : t.status = "completed") :
    manualConfirmDeposit s adminId tref = (s, .error .alreadyCompleted) := by
  simp only [manualConfirmDeposit, hfind]
  simp [hdone]

/-- Claim C7: on a state whose transaction reference `tref` identifies a
single ledger entry — a `momo_deposit` not yet `completed`, for an
existing user — `manual_confirm_deposit` succeeds once: it completes
that very transaction, stamps the confirming admin and timestamp,
creates no new transaction record, and credits the referenced user's
wallet by the transaction amount; the second call on the same reference
fails with `AlreadyCompleted` and the wallet is credited exactly once;
a reference matching no `momo_deposit` transaction fails `NotFound`. -/
theorem C7_confirm_idempotence {s : State} {adminId : Nat} {tref : String} {t : Txn} {u : User}
    (hfind : s.transactions.find?
      (fun t2 => t2.transaction_ref == some tref && t2.ttype == "momo_deposit") = some t)
    (hfirst : s.transactions.find?
      (fun t2 => t2.transaction_ref == some tref) = some t)
    (hpend : t.status ≠ "completed")
    (hu : findUser s t.userId = some u) :
    (manualConfirmDeposit s adminId tref).2 = .ok t.amount ∧
    ((manualConfirmDeposit s adminId tref).1).transactions.find?
        (fun t2 => t2.transaction_ref == some tref && t2.ttype == "momo_deposit") =
      some { t with status := "completed", confirmed_by := some adminId,
                    confirmed_at := some s.clock } ∧
    ((manualConfirmDeposit s adminId tref).1).transactions.length =
      s.transactions.length ∧
    findUser ((manualConfirmDeposit s adminId tref).1) t.userId =
      some { u with walletBalance := u.walletBalance + t.amount } ∧
    manualConfirmDeposit ((manualConfirmDeposit s adminId tref).1) adminId tref =
      ((manualConfirmDeposit s adminId tref).1, .error .alreadyCompleted) ∧
    ∀ (s3 : State) (a3 : Nat) (r3 : String),
      (∀ t3 ∈ s3.transactions, ¬(t3.transaction_ref = some r3 ∧ t3.ttype = "momo_deposit")) →
      manualConfirmDeposit s3 a3 r3 = (s3, .error .notFound) := by
  have hpred := List.find?_some hfind
  simp only [Bool.and_eq_true, beq_iff_eq] at hpred
  have hupd : ((manualConfirmDeposit s adminId tref).1).transactions.find?
      (fun t2 => t2.transaction_ref == some tref && t2.ttype == "momo_deposit") =
      some { t with status := "completed", confirmed_by := some adminId,
                    confirmed_at := some s.clock } := by
    simp only [manualConfirmDeposit, hfind, if_neg (show ¬ (t.status == "completed") = true by
      simp [hpend])]
    exact find?_updateFirst_of_first
      (by intro x hx; exact (Bool.and_eq_true _ _ ▸ hx).1)
      hfirst hfind (by simp [hpred.1, hpred.2])
  refine ⟨?_, hupd, ?_, ?_, ?_, ?_⟩
  · simp only [manualConfirmDeposit, hfind, if_neg (show ¬ (t.status == "completed") = true by
      simp [hpend])]
  · simp only [manualConfirmDeposit, hfind, if_neg (show ¬ (t.status == "completed") = true by
      simp [hpend])]
    exact updateFirst_length _ _ _
  · simp only [manualConfirmDeposit, hfind, if_neg (show ¬ (t.status == "completed") = true by
      simp [hpend])]
    rw [findUser_mk, find?_updateFirst_same (by intro x hx; simpa using hx)]
    have hu2 : s.users.find? (fun x => x.uid == t.userId) = some u := hu
    rw [hu2]
    rfl
  · exact confirm_already hupd rfl
  · intro s3 a3 r3 hnone
    unfold manualConfirmDeposit
    cases hf : s3.transactions.find?
        (fun t2 => t2.transaction_ref == some r3 && t2.ttype == "momo_deposit") with
    | none => rfl
    | some t4 =>
      exfalso
      have hp4 := List.find?_some hf
      simp only [Bool.and_eq_true, beq_iff_eq] at hp4
      exact hnone t4 (List.mem_of_find?_eq_some hf) ⟨hp4.1, hp4.2⟩

/-- Claim C1 counterexample: on the reachable store `sBlocked` the only
project is `blocked` with status `"open"`, yet `invest` succeeds and
mutates the store — the handler never consults `blocked`, refuting the
claim that such a call fails `ProjectNotOpen` with no state mutated. -/
theorem C1_blocked_open_invest_succeeds :
    (findProject sBlocked 0).map Project.blocked = some true ∧
    (findProject sBlocked 0).map Project.status = some "open" ∧
    (invest sBlocked 1 0 500).2 = Except.ok (500, 500) ∧
    (invest sBlocked 1 0 500).1 ≠ sBlocked := by decide

/-- Witness for Claim C1 (amended) at a concrete pending project. -/
theorem C1_invest_ignores_blocked_witness :
    invest sPend 0 0 500 = (sPend, .error .projectNotOpen) :=
  (C1_invest_ignores_blocked (p := pPend) (by decide)).1 (by decide)

/-- Claim C2: a successful `Invest(u, p, amt)` decreases `u`'s wallet by
exactly `amt`, increases `u.totalInvested` and `p.fundedAmount` by
exactly `amt`, appends exactly one `(u, amt, now)` entry to `p`'s
investors list, and appends exactly one new `completed` `investment`
transaction referencing `p`'s id and title snapshot — the transaction
collection is otherwise untouched.  Success is characterised by the four
guard conditions of the handler. -/
theorem C2_invest_conservation {s : State} {uid pid : Nat} {amount : Int}
    {u : User} {p : Project}
    (hu : findUser s uid = some u) (hp : findProject s pid = some p)
    (hopen : p.status = "open") (hmin : ¬ amount < p.minInvestment)
    (hbal : ¬ u.walletBalance < amount) :
    (invest s uid pid amount).2 =
      .ok (u.walletBalance - amount, u.totalInvested + amount) ∧
    findUser (invest s uid pid amount).1 uid =
      some { u with walletBalance := u.walletBalance - amount,
                    totalInvested := u.totalInvested + amount } ∧
    findProject (invest s uid pid amount).1 pid =
      some { p with
              fundedAmount := p.fundedAmount + amount,
              status := if p.fundingGoal ≤ p.fundedAmount + amount
                        then "closed" else "open",
              investors := p.investors ++
                [{ userId := uid, amount := amount, date := s.clock }] } ∧
    (invest s uid pid amount).1.transactions = s.transactions ++
      [{ userId := uid, amount := amount, ttype := "investment",
         status := "completed", projectId := some pid,
         projectTitle := some p.title, transaction_ref := none,
         confirmed_by := none, confirmed_at := none, date := s.clock }] :=
  invest_ok hu hp hopen hmin hbal

/-- Witness for Claim C2: Ada (balance 1000) invests 1000 into the open
Solar Farm project (goal 5000, minimum 500). -/
theorem C2_invest_conservation_witness :
    (invest sAda 0 1 1000).2 =
      .ok (uAda.walletBalance - 1000, uAda.totalInvested + 1000) ∧
    findUser (invest sAda 0 1 1000).1 0 =
      some { uAda with walletBalance := uAda.walletBalance - 1000,
                       totalInvested := uAda.totalInvested + 1000 } ∧
    findProject (invest sAda 0 1 1000).1 1 =
      some { pSolar with
              fundedAmount := pSolar.fundedAmount + 1000,
              status := if pSolar.fundingGoal ≤ pSolar.fundedAmount + 1000
                        then "closed" else "open",
              investors := pSolar.investors ++
                [{ userId := 0, amount := 1000, date := sAda.clock }] } ∧
    (invest sAda 0 1 1000).1.transactions = sAda.transactions ++
      [{ userId := 0, amount := 1000, ttype := "investment",
         status := "completed", projectId := some 1,
         projectTitle := some pSolar.title, transaction_ref := none,
         confirmed_by := none, confirmed_at := none, date := sAda.clock }] :=
  C2_invest_conservation (by decide) (by decide) (by decide) (by decide) (by decide)

/-- Claim C3: in every state reachable from the empty store (accounts
are created at registration with balance 0) by the modelled operations,
every user account's `walletBalance` is non-negative. -/
theorem C3_walletBalance_nonneg {s : State} (h : Reachable s) :
    ∀ u ∈ s.users, 0 ≤ u.walletBalance :=
  (reachable_inv h).1

/-- Witness for Claim C3: Dee's balance after a deposit-invest-withdraw
run is non-negative. -/
theorem C3_walletBalance_nonneg_witness : 0 ≤ uDee.walletBalance :=
  C3_walletBalance_nonneg ⟨demoOps, rfl⟩ uDee (by decide)

/-- Claim C4: in every reachable state, every project's `fundedAmount`
equals the sum of the `amount` fields of its `investors` entries. -/
theorem C4_fundedAmount_eq_sum {s : State} (h : Reachable s) :
    ∀ p ∈ s.projects,
      p.fundedAmount = (p.investors.map InvestorEntry.amount).sum :=
  reachable_fundedInv h

/-- Witness for Claim C4 at the Wind project after one investment. -/
theorem C4_fundedAmount_eq_sum_witness :
    pWind.fundedAmount = (pWind.investors.map InvestorEntry.amount).sum :=
  C4_fundedAmount_eq_sum ⟨demoOps, rfl⟩ pWind (by decide)

/-- Claim C5 counterexample: on the reachable store built by `c5Ops`
(the project was created with `minInvestment = -100`, which no handler
validates), `Invest(Eve, Loss, -50)` is accepted and `fundedAmount`
strictly decreases from 0 to -50 — refuting monotone non-decrease. -/
theorem C5_negative_investment_decreases_funded :
    Reachable (runOps c5Ops) ∧
    (findProject (runOps c5Ops) 0).map Project.fundedAmount = some 0 ∧
    (invest (runOps c5Ops) 1 0 (-50)).2 = Except.ok (50, -50) ∧
    (findProject (applyOp (runOps c5Ops) (Op.invest 1 0 (-50))) 0).map
      Project.fundedAmount = some (-50) :=
  ⟨⟨c5Ops, rfl⟩, by decide, by decide, by decide⟩

/-- Witness for Claim C5 (amended): Ada's 1000-unit investment does not
decrease Solar Farm's funded amount. -/
theorem C5_fundedAmount_monotone_witness :
    pSolar.fundedAmount ≤ pSolarAfter.fundedAmount :=
  C5_fundedAmount_monotone sAda (Op.invest 0 1 1000) (i := 0)
    (by decide) (by decide) (by decide)

/-- Claim C6: a successful invest adds the full amount (never clamped to
the remaining capacity, so the goal may be exceeded) and the post-state
status is `"closed"` exactly when the new `fundedAmount` reaches the
goal, `"open"` otherwise. -/
theorem C6_goal_closure_no_clamp {s : State} {uid pid : Nat} {amount : Int}
    {u : User} {p : Project}
    (hu : findUser s uid = some u) (hp : findProject s pid = some p)
    (hopen : p.status = "open") (hmin : ¬ amount < p.minInvestment)
    (hbal : ¬ u.walletBalance < amount) :
    (invest s uid pid amount).2 =
      .ok (u.walletBalance - amount, u.totalInvested + amount) ∧
    findProject (invest s uid pid amount).1 pid =
      some { p with
              fundedAmount := p.fundedAmount + amount,
              status := if p.fundingGoal ≤ p.fundedAmount + amount
                        then "closed" else "open",
              investors := p.investors ++
                [{ userId := uid, amount := amount, date := s.clock }] } :=
  ⟨(invest_ok hu hp hopen hmin hbal).1, (invest_ok hu hp hopen hmin hbal).2.2.1⟩

/-- Witness for Claim C6: the exact-goal-closure scenario — goal 1000,
funded 900, investing 100 closes the project at exactly 1000. -/
theorem C6_goal_closure_no_clamp_witness :
    (invest sBridge 1 0 100).2 =
      .ok (uCy.walletBalance - 100, uCy.totalInvested + 100) ∧
    findProject (invest sBridge 1 0 100).1 0 =
      some { pBridge with
              fundedAmount := pBridge.fundedAmount + 100,
              status := if pBridge.fundingGoal ≤ pBridge.fundedAmount + 100
                        then "closed" else "open",
              investors := pBridge.investors ++
                [{ userId := 1, amount := 100, date := sBridge.clock }] } :=
  C6_goal_closure_no_clamp (by decide) (by decide) (by decide) (by decide) (by decide)

/-- Witness for Claim C7: confirming the pending 250-unit deposit `R1`
succeeds once (wallet 10 → 260, transaction completed and stamped, no
new record) and fails `AlreadyCompleted` on the repeat call. -/
theorem C7_confirm_idempotence_witness :
    (manualConfirmDeposit sFay 7 "R1").2 = .ok tPend.amount ∧
    ((manualConfirmDeposit sFay 7 "R1").1).transactions.find?
        (fun t2 => t2.transaction_ref == some "R1" && t2.ttype == "momo_deposit") =
      some { tPend with
              status := "completed", confirmed_by := some 7,
              confirmed_at := some sFay.clock } ∧
    ((manualConfirmDeposit sFay 7 "R1").1).transactions.length =
      sFay.transactions.length ∧
    findUser ((manualConfirmDeposit sFay 7 "R1").1) tPend.userId =
      some { uFay with walletBalance := uFay.walletBalance + tPend.amount } ∧
    manualConfirmDeposit ((manualConfirmDeposit sFay 7 "R1").1) 7 "R1" =
      ((manualConfirmDeposit sFay 7 "R1").1, .error .alreadyCompleted) := by
  have hfind : sFay.transactions.find?
      (fun t2 => t2.transaction_ref == some "R1" && t2.ttype == "momo_deposit") =
      some tPend := by decide
  have hfirst : sFay.transactions.find?
      (fun t2 => t2.transaction_ref == some "R1") = some tPend := by decide
  have hpend : tPend.status ≠ "completed" := by decide
  have hu : findUser sFay tPend.userId = some uFay := by decide
  have h := @C7_confirm_idempotence sFay 7 "R1" tPend uFay hfind hfirst hpend hu
  exact ⟨h.1, h.2.1, h.2.2.1, h.2.2.2.1, h.2.2.2.2.1⟩

/-- Claim C8: whenever `deposit`, `withdraw`, `invest` or
`manual_confirm_deposit` returns one of the deliberate 4xx errors
(anything other than the `internalError` marking a Python crash), the
returned state is exactly the input state — no partial commit. -/
theorem C8_error_implies_unchanged (s : State) (uid pid adminId : Nat)
    (amount : Int) (tref : String) (e : ApiError)
    (he : e ≠ ApiError.internalError) :
    ((deposit s uid amount).2 = .error e → (deposit s uid amount).1 = s) ∧
    ((withdraw s uid amount).2 = .error e → (withdraw s uid amount).1 = s) ∧
    ((invest s uid pid amount).2 = .error e → (invest s uid pid amount).1 = s) ∧
    ((manualConfirmDeposit s adminId tref).2 = .error e →
      (manualConfirmDeposit s adminId tref).1 = s) := by
  refine ⟨?_, ?_, ?_, ?_⟩ <;> intro herr
  · rcases deposit_cases s uid amount with h | ⟨r, hok⟩ | hint
    · exact h
    · rw [hok] at herr
      simp at herr
    · rw [hint] at herr
      injection herr with h2
      exact absurd h2.symm he
  · rcases withdraw_cases s uid amount with h | ⟨r, hok⟩ | hint
    · exact h
    · rw [hok] at herr
      simp at herr
    · rw [hint] at herr
      injection herr with h2
      exact absurd h2.symm he
  · rcases invest_cases s uid pid amount with h | ⟨r, hok⟩ | hint
    · exact h
    · rw [hok] at herr
      simp at herr
    · rw [hint] at herr
      injection herr with h2
      exact absurd h2.symm he
  · rcases confirm_cases s adminId tref with h | ⟨r, hok⟩ | hint
    · exact h
    · rw [hok] at herr
      simp at herr
    · rw [hint] at herr
      injection herr with h2
      exact absurd h2.symm he

/-- Witness for Claim C8: Ada's over-balance withdrawal fails
`InsufficientFunds` and leaves the store unchanged. -/
theorem C8_error_implies_unchanged_witness :
    (withdraw sAda 0 5000).1 = sAda :=
  (C8_error_implies_unchanged sAda 0 0 0 5000 "R9" ApiError.insufficientFunds
    (by decide)).2.1 (by decide)

/-- Claim C9: `withdraw` rejects `amount ≤ 0` as `InvalidAmount`; for a
positive amount it fails `InsufficientFunds` exactly when the amount
exceeds the balance (leaving the store untouched), and otherwise
decrements the balance by exactly the amount, appends exactly one
`completed` `withdraw` transaction, and returns the new balance. -/
theorem C9_withdraw_contract {s : State} {uid : Nat} {amount : Int} {u : User}
    (hu : findUser s uid = some u) :
    (amount ≤ 0 → withdraw s uid amount = (s, .error .invalidAmount)) ∧
    (0 < amount →
      ((withdraw s uid amount).2 = .error .insufficientFunds ↔
        u.walletBalance < amount)) ∧
    (0 < amount → u.walletBalance < amount →
      withdraw s uid amount = (s, .error .insufficientFunds)) ∧
    (0 < amount → amount ≤ u.walletBalance →
      (withdraw s uid amount).2 = .ok (u.walletBalance - amount) ∧
      findUser (withdraw s uid amount).1 uid =
        some { u with walletBalance := u.walletBalance - amount } ∧
      (withdraw s uid amount).1.transactions = s.transactions ++
        [{ userId := uid, amount := amount, ttype := "withdraw",
           status := "completed", projectId := none, projectTitle := none,
           transaction_ref := none, confirmed_by := none,
           confirmed_at := none, date := s.clock }]) := by
  have hinsuf : ∀ _ : 0 < amount, u.walletBalance < amount →
      withdraw s uid amount = (s, .error .insufficientFunds) := by
    intro hpos hlt
    simp only [withdraw, if_neg (not_le.mpr hpos), hu, if_pos hlt]
  refine ⟨?_, ?_, hinsuf, ?_⟩
  · intro h
    simp only [withdraw, if_pos h]
  · intro hpos
    constructor
    · intro he
      by_contra hnot
      have hle2 : amount ≤ u.walletBalance := not_lt.mp hnot
      have hok := (withdraw_ok hu hpos hle2).1
      rw [hok] at he
      simp at he
    · intro hlt
      rw [hinsuf hpos hlt]
  · intro hpos hle2
    exact withdraw_ok hu hpos hle2

/-- Witness for Claim C9: the spec §8 scenario — balance 200, withdrawal
of 300 fails `InsufficientFunds` with the store unchanged. -/
theorem C9_withdraw_contract_witness :
    withdraw sGil 0 300 = (sGil, .error .insufficientFunds) :=
  (C9_withdraw_contract (u := uGil) (by decide)).2.2.1 (by decide) (by decide)

/-- Claim C10: in every reachable state every `momo_deposit` transaction
already has status `"completed"` (the mobile-money deposit endpoint
credits the wallet and records the transaction as completed at
initiation), and consequently `manual_confirm_deposit` on any reference
carried by a `momo_deposit` transaction fails `AlreadyCompleted` without
touching the store — it never credits a wallet on such states. -/
theorem C10_momo_deposit_always_completed {s : State} (h : Reachable s) :
    (∀ t ∈ s.transactions, t.ttype = "momo_deposit" → t.status = "completed") ∧
    ∀ (adminId : Nat) (tref : String),
      (∃ t ∈ s.transactions,
        t.ttype = "momo_deposit" ∧ t.transaction_ref = some tref) →
      manualConfirmDeposit s adminId tref = (s, .error .alreadyCompleted) := by
  refine ⟨(reachable_inv h).2, ?_⟩
  rintro adminId tref ⟨t0, ht0mem, hty, href⟩
  cases hf : s.transactions.find?
      (fun t => t.transaction_ref == some tref && t.ttype == "momo_deposit") with
  | none =>
    exfalso
    rw [List.find?_eq_none] at hf
    have := hf t0 ht0mem
    simp [href, hty] at this
  | some t1 =>
    have hpred := List.find?_some hf
    simp only [Bool.and_eq_true, beq_iff_eq] at hpred
    exact confirm_already hf ((reachable_inv h).2 t1 (List.mem_of_find?_eq_some hf) hpred.2)

/-- Witness for Claim C10: confirming the completed reference `WFD0`
written by Eli's mobile-money deposit fails `AlreadyCompleted`. -/
theorem C10_momo_deposit_always_completed_witness :
    manualConfirmDeposit (runOps c10Ops) 9 "WFD0" =
      (runOps c10Ops, .error .alreadyCompleted) :=
  (C10_momo_deposit_always_completed ⟨c10Ops, rfl⟩).2 9 "WFD0"
    ⟨tEli, by decide, by decide, by decide⟩

end WeFund
